import Mathlib

/-!
Verification development for the pholcus crawl-engine core:
the collection pipeline (app/pipeline/collector/collector.go) and the
history ledger (app/aid/history/history.go), shallowly embedded in Lean.
Items, fingerprints and backend contents are modelled as explicit lists;
asynchronous behaviour is modelled as small-step transition relations.
-/

set_option maxHeartbeats 1000000

/-- Per-task batching state of the Collector: the docker currently being
filled, the batches handed to asynchronous output so far (snapshot of the
docker content at trigger time, in trigger order), and the number of
triggered text outputs (outCount[0] in the source). -/
structure CState (α : Type) where
  docker : List α
  outBatches : List (List α)
  started : Nat
deriving DecidableEq

/-- Embeds Collector.dockerOne: append the cell to the current docker; if the
docker reached the configured capacity (len >= DockerCap), trigger an output
of it (goOutput increments the started counter and snapshots the docker) and
switch to a fresh docker. The DockerQueue swap (Change) is modelled from the
spec: the new current docker starts empty, the full one is handed to output. -/
def dockerOne {α : Type} (cap : Nat) (st : CState α) (d : α) : CState α :=
  if cap ≤ (st.docker ++ [d]).length then
    { docker := [], outBatches := st.outBatches ++ [st.docker ++ [d]],
      started := st.started + 1 }
  else
    { st with docker := st.docker ++ [d] }

/-- Collector state right after Init: empty docker, no batches, zero counter. -/
def initCState {α : Type} : CState α := ⟨[], [], 0⟩

/-- Embeds the unconditional goOutput(self.Curr) that Manage performs right
after the fill loop exits: the current docker content is handed to output
(even when empty) and the started counter is incremented. -/
def finalFlush {α : Type} (st : CState α) : CState α :=
  { st with outBatches := st.outBatches ++ [st.docker], started := st.started + 1 }

/-- Functional core of Collector.Manage for the text-item path: route every
drained item through dockerOne in arrival order, then flush the remaining
docker with one final output. -/
def manage {α : Type} (cap : Nat) (items : List α) : CState α :=
  finalFlush (items.foldl (dockerOne cap) initCState)

/-- Embeds Collector.setDataSum on the sum[3] array:
sum[0], sum[1] = sum[1], sum[1]+add, with sum[2] untouched. -/
def setDataSum (s : Nat × Nat × Nat) (add : Nat) : Nat × Nat × Nat :=
  (s.2.1, s.2.1 + add, s.2.2)

/-- Embeds Collector.dataSum: the cumulative text-item total sum[1]. -/
def dataSum (s : Nat × Nat × Nat) : Nat := s.2.1

/-- Modelled from the spec: each completed text output adds its batch size to
the cumulative count (the body of Output is not under src); Report then
publishes dataSum, the cumulative total (source dataSum/setDataSum/Report). -/
def reportDataNum {α : Type} (cap : Nat) (items : List α) : Nat :=
  dataSum ((manage cap items).outBatches.foldl (fun s b => setDataSum s b.length) (0, 0, 0))

/-- Interleaved state of Manage's fill/drain loop: the single-slot control
channel (true while the token written by CtrlW at Manage start is still
present; CtrlR consumes it to request shutdown), the DataChan content in FIFO
order, the batching state, and two ghost histories: every item ever enqueued
and every item drained into a docker. -/
structure LState (α : Type) where
  ctrl : Bool
  queue : List α
  col : CState α
  enq : List α
  proc : List α

/-- Loop state at the top of Manage, after CtrlW: token present, queues empty. -/
def initLState {α : Type} : LState α := ⟨true, [], initCState, [], []⟩

/-- Interleaved steps of the fill/drain loop of Collector.Manage: a producer
enqueues onto DataChan (CollectData), some goroutine consumes the control
token (CtrlR, requesting shutdown), or the loop body pops one item and routes
it through dockerOne. The loop guard forbids exiting while the token is
present or DataChan is nonempty, so exit is modelled as the predicate
loopExit rather than a step. -/
inductive LStep (cap : Nat) {α : Type} : LState α → LState α → Prop where
  | enqueue (s : LState α) (d : α) :
      LStep cap s { s with queue := s.queue ++ [d], enq := s.enq ++ [d] }
  | shutdown (s : LState α) (h : s.ctrl = true) :
      LStep cap s { s with ctrl := false }
  | deq (s : LState α) (d : α) (rest : List α) (h : s.queue = d :: rest) :
      LStep cap s { s with queue := rest, col := dockerOne cap s.col d,
                           proc := s.proc ++ [d] }

/-- States reachable by the loop from the start of Manage. -/
inductive LReach (cap : Nat) {α : Type} : LState α → Prop where
  | init : LReach cap initLState
  | step {s s2 : LState α} : LReach cap s → LStep cap s s2 → LReach cap s2

/-- The loop guard of Manage: the for loop exits exactly when the control
token has been consumed and DataChan is observed empty. -/
def loopExit {α : Type} (s : LState α) : Prop := s.ctrl = false ∧ s.queue = []

/-- Program phase of Manage: the fill/drain loop, the drain-completion wait
after the final goOutput, and the point after Report has returned. -/
inductive Phase where
  | fill
  | wait
  | done
deriving DecidableEq

/-- Counter state of Manage's completion barrier: outCount[0]/outCount[1]
(text outputs started/finished), outCount[2]/outCount[3] (file outputs
started/finished), the number of asynchronous outputs still in flight of each
kind (ghost), the FileChan length, the phase, and the number of reports
emitted onto the report channel. -/
structure BState where
  dataStarted : Nat
  dataFinished : Nat
  dataInflight : Nat
  fileStarted : Nat
  fileFinished : Nat
  fileInflight : Nat
  fileQueue : Nat
  phase : Phase
  reports : Nat
deriving DecidableEq

/-- Barrier state at the top of Manage. -/
def initBState : BState :=
  ⟨0, 0, 0, 0, 0, 0, 0, Phase.fill, 0⟩

/-- The drain-completion condition of Manage's second loop: it stops waiting
exactly when NOT (outCount[0] > outCount[1] or outCount[2] > outCount[3] or
len(FileChan) > 0). -/
def barrierHolds (s : BState) : Prop :=
  s.dataStarted ≤ s.dataFinished ∧ s.fileStarted ≤ s.fileFinished ∧
    s.fileQueue = 0

/-- Interleaved steps of Manage and the asynchronous outputs it spawns.
dataTrigger embeds goOutput called from dockerOne during the fill loop:
outCount[0] is incremented synchronously and one output goes in flight.
dataFinish embeds the closure end: the output completes and outCount[1] is
incremented. finalTrigger is the unconditional goOutput after the loop, which
moves Manage to the wait phase. The file side is modelled from the spec:
SaveFile (not under src) drains FileChan for the whole task, incrementing
outCount[2] at trigger and outCount[3] at completion. report embeds Report:
it fires only once the wait loop observes the barrier condition. -/
inductive BStep : BState → BState → Prop where
  | dataTrigger (s : BState) (h : s.phase = Phase.fill) :
      BStep s { s with dataStarted := s.dataStarted + 1,
                       dataInflight := s.dataInflight + 1 }
  | dataFinish (s : BState) (h : 0 < s.dataInflight) :
      BStep s { s with dataFinished := s.dataFinished + 1,
                       dataInflight := s.dataInflight - 1 }
  | fileEnqueue (s : BState) (h : s.phase ≠ Phase.done) :
      BStep s { s with fileQueue := s.fileQueue + 1 }
  | fileTrigger (s : BState) (h : 0 < s.fileQueue) (h2 : s.phase ≠ Phase.done) :
      BStep s { s with fileQueue := s.fileQueue - 1,
                       fileStarted := s.fileStarted + 1,
                       fileInflight := s.fileInflight + 1 }
  | fileFinish (s : BState) (h : 0 < s.fileInflight) :
      BStep s { s with fileFinished := s.fileFinished + 1,
                       fileInflight := s.fileInflight - 1 }
  | finalTrigger (s : BState) (h : s.phase = Phase.fill) :
      BStep s { s with dataStarted := s.dataStarted + 1,
                       dataInflight := s.dataInflight + 1,
                       phase := Phase.wait }
  | report (s : BState) (h : s.phase = Phase.wait) (hb : barrierHolds s) :
      BStep s { s with reports := s.reports + 1, phase := Phase.done }

/-- Barrier states reachable from the top of Manage. -/
inductive BReach : BState → Prop where
  | init : BReach initBState
  | step {s s2 : BState} : BReach s → BStep s s2 → BReach s2

/-- The storage backend selected by the provider switch in history.go:
case "mgo", case "mysql", and the default flat-file branch. -/
inductive Backend where
  | mgo
  | mysql
  | file
deriving DecidableEq

/-- Embeds the provider switch of ReadSuccess/ReadFailure: any provider other
than "mgo" and "mysql" falls to the default (flat-file) branch. -/
def selectBackend (provider : String) : Backend :=
  if provider = "mgo" then Backend.mgo
  else if provider = "mysql" then Backend.mysql
  else Backend.file

/-- Lock/access events of one History Ledger operation, in program order:
taking and releasing the RWMutex, writing the provider field, and reading or
writing the Success Set respectively the Failure Index. -/
inductive LEv where
  | lock
  | unlock
  | provWrite
  | succAccess
  | failAccess
deriving DecidableEq

/-- Embeds the Success half of the ledger: the inherited set (old), the
current-run set (new) — Go maps from fingerprint to true, modelled as their
key lists — and the inheritable flag. -/
structure Success where
  old : List String
  new : List String
  inheritable : Bool
deriving DecidableEq

/-- Embeds the Failure half: spider name to failed-fingerprint set (Go map of
maps, modelled as an association list of key lists), plus inheritable. -/
structure Failure where
  list : List (String × List String)
  inheritable : Bool
deriving DecidableEq

/-- Embeds the History struct: Success and Failure state plus the recorded
provider. The RWMutex is modelled by the event traces the operations emit. -/
structure History where
  success : Success
  failure : Failure
  provider : String
deriving DecidableEq

/-- Embeds request.Request as far as history.go uses it: the spider name read
back by GetSpiderName after UnSerialize, plus the url and method that the
serialized fingerprint carries. -/
structure Request where
  spiderName : String
  url : String
  method : String
deriving DecidableEq

/-- The ledger built by New(): empty sets, zero-value inheritable flags. -/
def newHistory : History :=
  ⟨⟨[], [], false⟩, ⟨[], false⟩, ""⟩

/-- Result of one read operation: the ledger state afterwards, which backend
was consulted (none when the operation returned before the provider switch),
whether the operation panicked, and its lock/access event trace. On a panic
the trace and state are those at the point of the panic. -/
structure ReadResult where
  hist : History
  backendUsed : Option Backend
  panicked : Bool
  trace : List LEv
deriving DecidableEq

/-- Go map insert m[k] = true on a key list: duplicates collapse. -/
def insertKey (m : List String) (k : String) : List String :=
  if k ∈ m then m else m ++ [k]

/-- Folding a sequence of loaded keys into a key list, as the load loops do. -/
def insertAll (m : List String) (ks : List String) : List String :=
  ks.foldl insertKey m

/-- Embeds the Failure Index insert: select or create the spider's subset and
insert the fingerprint. -/
def insertFail (l : List (String × List String)) (sp f : String) :
    List (String × List String) :=
  match l with
  | [] => [(sp, [f])]
  | (a, s) :: rest =>
      if a = sp then (a, insertKey s f) :: rest
      else (a, s) :: insertFail rest sp f

/-- Embeds the failure-load loop shared by the mgo and mysql branches of
ReadFailure: each stored string is deserialized (UnSerialize); undecodable
records are skipped; the rest are indexed under their spider name. -/
def loadFailures (unser : String → Option Request) (docs : List String) :
    List (String × List String) :=
  docs.foldl
    (fun acc s =>
      match unser s with
      | none => acc
      | some req => insertFail acc req.spiderName s)
    []

/-- The opening-brace byte written into b[0] by the flat-file load. -/
def openBraceChar : Char := Char.ofNat 123

/-- The closing-brace byte appended by the flat-file load. -/
def closeBraceChar : Char := Char.ofNat 125

/-- Embeds the flat-file byte patching: overwrite the first byte with an
opening brace and append a closing brace before unmarshalling. Well-defined
only for nonempty content; on empty content the source write b[0] panics. -/
def patchBody (b : List Char) : List Char :=
  openBraceChar :: (b.drop 1 ++ [closeBraceChar])

/-- Environment of one ReadSuccess call: outcome of the mgo find (none on
error), of mysql.DB(), of SelectAll (none on error, otherwise the scanned id
per row), whether os.Open succeeds on the success file, the raw file content,
and the outcome of json.Unmarshal on the patched content (none on a decode
error, in which case the target map is left untouched). -/
structure SuccEnv where
  mgoFind : Option (List String)
  mysqlDb : Bool
  mysqlRows : Option (List String)
  fileExists : Bool
  fileContent : List Char
  jsonKeys : List Char → Option (List String)

/-- Environment of one ReadFailure call, mirroring SuccEnv with the stored
serialized requests and the UnSerialize outcome per record. -/
structure FailEnv where
  mgoErr : Bool
  mgoDocs : List String
  mysqlDb : Bool
  mysqlRows : Option (List String)
  fileExists : Bool
  fileContent : List Char
  jsonFailList : List Char → Option (List (String × List String))
  unserialize : String → Option Request

/-- The locked prefix shared by ReadSuccess, ReadFailure, FlushSuccess and
FlushFailure: Lock, write of the provider field, Unlock. -/
def baseTrace : List LEv := [LEv.lock, LEv.provWrite, LEv.unlock]

/-- Trace of a ReadSuccess branch that touches only flags/resets. -/
def succTrace1 : List LEv := baseTrace ++ [LEv.succAccess]

/-- Trace of a ReadSuccess branch that resets the sets and runs a load. -/
def succTrace2 : List LEv := baseTrace ++ [LEv.succAccess, LEv.succAccess]

/-- Trace of a ReadFailure branch that touches only flags/resets. -/
def failTrace1 : List LEv := baseTrace ++ [LEv.failAccess]

/-- Trace of a ReadFailure branch that resets the index and runs a load. -/
def failTrace2 : List LEv := baseTrace ++ [LEv.failAccess, LEv.failAccess]

/-- Embeds History.ReadSuccess after the locked provider write, given the
already-selected backend branch. If inherit is false: reset old and new and
mark not inheritable, no backend read. Else if already inheritable: no-op.
Else: reset both sets, mark inheritable, and load old from the backend; any
backend error leaves old empty and returns normally; in the flat-file branch
an existing but empty file panics at the b[0] write. -/
def readSuccessGo (env : SuccEnv) (b : Backend) (inherit : Bool) (h : History) :
    ReadResult :=
  if !inherit then
    { hist := { h with success := ⟨[], [], false⟩ }, backendUsed := none,
      panicked := false, trace := succTrace1 }
  else if h.success.inheritable then
    { hist := h, backendUsed := none, panicked := false, trace := succTrace1 }
  else
    let h2 : History := { h with success := ⟨[], [], true⟩ }
    match b with
    | Backend.mgo =>
      match env.mgoFind with
      | none =>
          { hist := h2, backendUsed := some Backend.mgo, panicked := false,
            trace := succTrace2 }
      | some keys =>
          { hist := { h2 with success := ⟨insertAll [] keys, [], true⟩ },
            backendUsed := some Backend.mgo, panicked := false,
            trace := succTrace2 }
    | Backend.mysql =>
      if env.mysqlDb = false then
        { hist := h2, backendUsed := some Backend.mysql, panicked := false,
          trace := succTrace2 }
      else
        match env.mysqlRows with
        | none =>
            { hist := h2, backendUsed := some Backend.mysql, panicked := false,
              trace := succTrace2 }
        | some rows =>
            { hist := { h2 with success := ⟨insertAll [] rows, [], true⟩ },
              backendUsed := some Backend.mysql, panicked := false,
              trace := succTrace2 }
    | Backend.file =>
      if env.fileExists = false then
        { hist := h2, backendUsed := some Backend.file, panicked := false,
          trace := succTrace2 }
      else if env.fileContent.length = 0 then
        { hist := h2, backendUsed := some Backend.file, panicked := true,
          trace := succTrace2 }
      else
        match env.jsonKeys (patchBody env.fileContent) with
        | none =>
            { hist := h2, backendUsed := some Backend.file, panicked := false,
              trace := succTrace2 }
        | some keys =>
            { hist := { h2 with success := ⟨insertAll [] keys, [], true⟩ },
              backendUsed := some Backend.file, panicked := false,
              trace := succTrace2 }

/-- Embeds History.ReadSuccess: record the provider under the lock, then run
the branch selected by the provider switch. -/
def History.readSuccess (h : History) (env : SuccEnv) (provider : String)
    (inherit : Bool) : ReadResult :=
  readSuccessGo env (selectBackend provider) inherit { h with provider := provider }

/-- Embeds History.ReadFailure after the locked provider write, mirroring
readSuccessGo on the Failure Index; undecodable stored records are skipped by
the mgo/mysql load loops, a json decode error in the flat-file branch leaves
the index empty, and an existing empty file panics at the b[0] write. -/
def readFailureGo (env : FailEnv) (b : Backend) (inherit : Bool) (h : History) :
    ReadResult :=
  if !inherit then
    { hist := { h with failure := ⟨[], false⟩ }, backendUsed := none,
      panicked := false, trace := failTrace1 }
  else if h.failure.inheritable then
    { hist := h, backendUsed := none, panicked := false, trace := failTrace1 }
  else
    let h2 : History := { h with failure := ⟨[], true⟩ }
    match b with
    | Backend.mgo =>
      if env.mgoErr then
        { hist := h2, backendUsed := some Backend.mgo, panicked := false,
          trace := failTrace2 }
      else
        { hist := { h2 with failure := ⟨loadFailures env.unserialize env.mgoDocs, true⟩ },
          backendUsed := some Backend.mgo, panicked := false,
          trace := failTrace2 }
    | Backend.mysql =>
      if env.mysqlDb = false then
        { hist := h2, backendUsed := some Backend.mysql, panicked := false,
          trace := failTrace2 }
      else
        match env.mysqlRows with
        | none =>
            { hist := h2, backendUsed := some Backend.mysql, panicked := false,
              trace := failTrace2 }
        | some rows =>
            { hist := { h2 with failure := ⟨loadFailures env.unserialize rows, true⟩ },
              backendUsed := some Backend.mysql, panicked := false,
              trace := failTrace2 }
    | Backend.file =>
      if env.fileExists = false then
        { hist := h2, backendUsed := some Backend.file, panicked := false,
          trace := failTrace2 }
      else if env.fileContent.length = 0 then
        { hist := h2, backendUsed := some Backend.file, panicked := true,
          trace := failTrace2 }
      else
        match env.jsonFailList (patchBody env.fileContent) with
        | none =>
            { hist := h2, backendUsed := some Backend.file, panicked := false,
              trace := failTrace2 }
        | some l =>
            { hist := { h2 with failure := ⟨l, true⟩ },
              backendUsed := some Backend.file, panicked := false,
              trace := failTrace2 }

/-- Embeds History.ReadFailure: record the provider under the lock, then run
the branch selected by the provider switch. -/
def History.readFailure (h : History) (env : FailEnv) (provider : String)
    (inherit : Bool) : ReadResult :=
  readFailureGo env (selectBackend provider) inherit { h with provider := provider }

/-- Embeds History.Empty: under one Lock/Unlock pair, reset new, old and the
Failure Index. The inheritable flags are not touched. -/
def History.emptyCache (h : History) : History × List LEv :=
  ({ h with success := ⟨[], [], h.success.inheritable⟩,
            failure := ⟨[], h.failure.inheritable⟩ },
   [LEv.lock, LEv.succAccess, LEv.succAccess, LEv.failAccess, LEv.unlock])

/-- Result of a flush: ledger state, backend written to, entries written. -/
structure FlushResult where
  hist : History
  backend : Backend
  count : Nat
  trace : List LEv
deriving DecidableEq

/-- Embeds History.FlushSuccess, with Success.flush modelled from the spec
(success.go is not under src): record the provider under the lock, then
persist the in-memory new fingerprints to the provider-selected backend
(unrecognized providers fall back to the flat file) without clearing them. -/
def History.flushSuccess (h : History) (provider : String) : FlushResult :=
  { hist := { h with provider := provider },
    backend := selectBackend provider,
    count := h.success.new.length,
    trace := baseTrace ++ [LEv.succAccess] }

/-- Embeds History.FlushFailure, with Failure.flush modelled from the spec
(failure.go is not under src): record the provider under the lock, then
persist the in-memory failure entries to the provider-selected backend
(unrecognized providers fall back to the flat file) without clearing them. -/
def History.flushFailure (h : History) (provider : String) : FlushResult :=
  { hist := { h with provider := provider },
    backend := selectBackend provider,
    count := (h.failure.list.map (fun p => p.2.length)).sum,
    trace := baseTrace ++ [LEv.failAccess] }

/-- Modelled from the spec: a record's fingerprint is its serialized identity
string (method and URL); the concrete serializer lives outside src. -/
structure Record where
  url : String
  method : String
deriving DecidableEq

/-- Modelled from the spec: the fingerprint derived from a record. -/
def Record.fingerprint (r : Record) : String := r.method ++ "." ++ r.url

/-- Modelled from the spec: UpsertSuccess (success.go is not under src) —
compute the record's fingerprint; if it is absent from both old and new,
insert it into new and return true; otherwise change nothing and return
false. -/
def History.upsertSuccess (h : History) (r : Record) : History × Bool :=
  if r.fingerprint ∈ h.success.old ∨ r.fingerprint ∈ h.success.new then
    (h, false)
  else
    ({ h with success := ⟨h.success.old, h.success.new ++ [r.fingerprint],
                          h.success.inheritable⟩ },
     true)

/-- Checks each Success Set / Failure Index access in a trace against a
condition on the current lock depth. -/
def accDepthAll (need : Nat → Bool) : List LEv → Nat → Bool
  | [], _ => true
  | LEv.lock :: rest, d => accDepthAll need rest (d + 1)
  | LEv.unlock :: rest, d => accDepthAll need rest (d - 1)
  | LEv.provWrite :: rest, d => accDepthAll need rest d
  | LEv.succAccess :: rest, d => need d && accDepthAll need rest d
  | LEv.failAccess :: rest, d => need d && accDepthAll need rest d

/-- Every set access in the trace happens while the lock is held. -/
def accessesInside (tr : List LEv) : Bool :=
  accDepthAll (fun d => decide (0 < d)) tr 0

/-- Every set access in the trace happens while the lock is not held. -/
def accessesOutside (tr : List LEv) : Bool :=
  accDepthAll (fun d => decide (d = 0)) tr 0

/-- Backend environment in which every backend is unavailable and the
success file does not exist. -/
def envAbsent : SuccEnv := ⟨none, false, none, false, [], fun _ => none⟩

/-- Success-file environment: the file exists but is empty (zero bytes). -/
def envEmptyFile : SuccEnv := ⟨none, false, none, true, [], fun _ => none⟩

/-- Success-file environment: the file exists with undecodable content. -/
def envBadContent : SuccEnv :=
  ⟨none, false, none, true, [Char.ofNat 120], fun _ => none⟩

/-- Success-file environment: the file exists with one decodable record. -/
def envFileReady : SuccEnv :=
  ⟨none, false, none, true, [Char.ofNat 107], fun _ => some ["k"]⟩

/-- Failure-file environment: no backend data, file absent. -/
def fenvAbsent : FailEnv :=
  ⟨false, [], false, none, false, [], fun _ => none, fun _ => none⟩

/-- Failure-file environment: the file exists but is empty (zero bytes). -/
def fenvEmptyFile : FailEnv :=
  ⟨false, [], false, none, true, [], fun _ => none, fun _ => none⟩

/-- Failure-file environment: the file exists with undecodable content. -/
def fenvBadContent : FailEnv :=
  ⟨false, [], false, none, true, [Char.ofNat 120], fun _ => none, fun _ => none⟩

/-- A ledger state whose success half is marked inheritable, with records in
every set. -/
def histInherited : History :=
  ⟨⟨["a"], ["b"], true⟩, ⟨[("sp", ["f1"])], true⟩, "file"⟩

theorem dockerOne_lt {α : Type} (cap : Nat) (st : CState α) (d : α)
    (h : st.docker.length + 1 < cap) :
    dockerOne cap st d = { st with docker := st.docker ++ [d] } := by
  have hc : ¬ cap ≤ (st.docker ++ [d]).length := by
    simp only [List.length_append, List.length_cons, List.length_nil]
    omega
  unfold dockerOne
  rw [if_neg hc]

theorem dockerOne_trigger {α : Type} (cap : Nat) (st : CState α) (d : α)
    (h : cap ≤ st.docker.length + 1) :
    dockerOne cap st d
      = ⟨[], st.outBatches ++ [st.docker ++ [d]], st.started + 1⟩ := by
  have hc : cap ≤ (st.docker ++ [d]).length := by
    simp only [List.length_append, List.length_cons, List.length_nil]
    omega
  unfold dockerOne
  rw [if_pos hc]

/-- Batches plus the current docker always hold exactly the items routed so
far, in order: one dockerOne step extends that collection by its item. -/
theorem dockerOne_join {α : Type} (cap : Nat) (st : CState α) (d : α) :
    (dockerOne cap st d).outBatches.flatten ++ (dockerOne cap st d).docker
      = st.outBatches.flatten ++ st.docker ++ [d] := by
  unfold dockerOne
  split <;> simp [List.append_assoc]

theorem foldl_dockerOne_join {α : Type} (cap : Nat) (l : List α) :
    ∀ st : CState α,
      (l.foldl (dockerOne cap) st).outBatches.flatten
          ++ (l.foldl (dockerOne cap) st).docker
        = st.outBatches.flatten ++ st.docker ++ l := by
  induction l with
  | nil => intro st; simp
  | cons x xs ih =>
    intro st
    simp only [List.foldl_cons]
    rw [ih (dockerOne cap st x), dockerOne_join]
    simp

/-- One trigger per recorded batch: started grows exactly with outBatches. -/
theorem dockerOne_count {α : Type} (cap : Nat) (st : CState α) (d : α) :
    (dockerOne cap st d).started + st.outBatches.length
      = st.started + (dockerOne cap st d).outBatches.length := by
  unfold dockerOne
  split
  · simp only [List.length_append, List.length_cons, List.length_nil]
    omega
  · rfl

theorem foldl_dockerOne_count {α : Type} (cap : Nat) (l : List α) :
    ∀ st : CState α,
      (l.foldl (dockerOne cap) st).started + st.outBatches.length
        = st.started + (l.foldl (dockerOne cap) st).outBatches.length := by
  induction l with
  | nil => intro st; rfl
  | cons x xs ih =>
    intro st
    simp only [List.foldl_cons]
    have h1 := ih (dockerOne cap st x)
    have h2 := dockerOne_count cap st x
    omega

/-- Filling strictly below capacity never triggers an output. -/
theorem foldl_dockerOne_no_trigger {α : Type} (cap : Nat) (l : List α) :
    ∀ st : CState α, st.docker.length + l.length < cap →
      l.foldl (dockerOne cap) st = { st with docker := st.docker ++ l } := by
  induction l with
  | nil => intro st _; simp
  | cons x xs ih =>
    intro st h
    simp only [List.length_cons] at h
    simp only [List.foldl_cons]
    rw [dockerOne_lt cap st x (by omega)]
    rw [ih _ (by simp only [List.length_append, List.length_cons, List.length_nil]; omega)]
    simp

/-- Filling exactly up to capacity triggers one output at the last item. -/
theorem foldl_dockerOne_exact {α : Type} (cap : Nat) (l : List α) :
    ∀ st : CState α, l ≠ [] → st.docker.length + l.length = cap →
      l.foldl (dockerOne cap) st
        = ⟨[], st.outBatches ++ [st.docker ++ l], st.started + 1⟩ := by
  induction l with
  | nil => intro st hne _; cases hne rfl
  | cons x xs ih =>
    intro st _ h
    simp only [List.length_cons] at h
    simp only [List.foldl_cons]
    by_cases hxs : xs = []
    · subst hxs
      simp only [List.length_nil] at h
      rw [dockerOne_trigger cap st x (by omega)]
      simp
    · have hxlen : 1 ≤ xs.length := by
        cases xs with
        | nil => cases hxs rfl
        | cons y ys => simp
      rw [dockerOne_lt cap st x (by omega)]
      rw [ih _ hxs (by simp only [List.length_append, List.length_cons, List.length_nil]; omega)]
      simp

/-- A multiple of the capacity fills to an empty current docker. -/
theorem foldl_dockerOne_multiple {α : Type} (cap : Nat) (hcap : 1 ≤ cap) :
    ∀ (m : Nat) (l : List α) (st : CState α), st.docker = [] →
      l.length = m * cap → (l.foldl (dockerOne cap) st).docker = [] := by
  intro m
  induction m with
  | zero =>
    intro l st hd hl
    simp only [Nat.zero_mul] at hl
    rw [List.eq_nil_of_length_eq_zero hl]
    simpa using hd
  | succ k ih =>
    intro l st hd hl
    rw [← List.take_append_drop cap l, List.foldl_append]
    have hltk : (l.take cap).length = cap := by
      rw [List.length_take]
      simp only [hl]
      have : cap ≤ (k + 1) * cap := by
        calc cap = 1 * cap := by omega
        _ ≤ (k + 1) * cap := Nat.mul_le_mul_right cap (by omega)
      omega
    have hne : l.take cap ≠ [] := by
      intro hcon
      rw [hcon] at hltk
      simp at hltk
      omega
    rw [foldl_dockerOne_exact cap (l.take cap) st hne (by rw [hd]; simpa using hltk)]
    apply ih (l.drop cap) _ rfl
    rw [List.length_drop, hl]
    have : (k + 1) * cap = k * cap + cap := by ring
    omega

/-- Claim C2 counterexample: with docker capacity C = 1 and N = C + 1 = 2
submitted items, Manage triggers three outputs (the unconditional final flush
outputs an empty third docker), not exactly two as the claim states for every
capacity C >= 1. -/
theorem collector_cap_one_counterexample :
    (manage 1 [(0 : Nat), 1]).started = 3 ∧
    (manage 1 [(0 : Nat), 1]).started ≠ 2 ∧
    (manage 1 [(0 : Nat), 1]).outBatches = [[0], [1], []] := by
  refine ⟨by decide, by decide, by decide⟩

/-- Claim C2 (amended: for docker capacity C >= 2): if exactly N = C + 1 items
are submitted and then shutdown drains, exactly 2 outputs are triggered, with
batches of sizes C and 1 that together carry each item exactly once; with
C = 3 and N = 7, exactly 3 batches of sizes 3, 3, 1 are triggered and the
report's cumulative item count is 7. For C = 1 a third, empty output is also
triggered (see the counterexample). -/
theorem collector_overflow_batches :
    (∀ (α : Type) (C : Nat) (items : List α), 2 ≤ C → items.length = C + 1 →
       manage C items = ⟨items.drop C, [items.take C, items.drop C], 2⟩ ∧
       (manage C items).outBatches.flatten = items ∧
       (manage C items).started = 2) ∧
    ((manage 3 [(0 : Nat), 1, 2, 3, 4, 5, 6]).outBatches.map List.length = [3, 3, 1] ∧
     (manage 3 [(0 : Nat), 1, 2, 3, 4, 5, 6]).started = 3 ∧
     reportDataNum 3 [(0 : Nat), 1, 2, 3, 4, 5, 6] = 7) := by
  constructor
  · intro α C items hC hlen
    have hsplit : items = items.take C ++ items.drop C :=
      (List.take_append_drop C items).symm
    have htlen : (items.take C).length = C := by
      rw [List.length_take]
      omega
    have hdlen : (items.drop C).length = 1 := by
      rw [List.length_drop]
      omega
    have htne : items.take C ≠ [] := by
      intro hc
      rw [hc] at htlen
      simp at htlen
      omega
    have hmain : manage C items = ⟨items.drop C, [items.take C, items.drop C], 2⟩ := by
      unfold manage
      conv_lhs => rw [hsplit]
      rw [List.foldl_append]
      rw [foldl_dockerOne_exact C (items.take C) initCState htne
        (by simp [initCState, htlen])]
      rw [foldl_dockerOne_no_trigger C (items.drop C) _
        (by simp [hdlen]; omega)]
      simp [finalFlush, initCState]
    refine ⟨hmain, ?_, ?_⟩
    · rw [hmain]
      simp only [List.flatten_cons, List.flatten_nil, List.append_nil]
      exact List.take_append_drop C items
    · rw [hmain]
  · refine ⟨by decide, by decide, by decide⟩

/-- Claim C2 witness: the amended statement applied at capacity 2 and three
concrete items. -/
theorem collector_overflow_batches_witness :
    2 ≤ 2 ∧ (manage 2 [(10 : Nat), 11, 12]).outBatches.flatten = [10, 11, 12] :=
  ⟨by decide, (collector_overflow_batches.1 Nat 2 [10, 11, 12] (by decide) (by decide)).2.1⟩

/-- Claim C10: after the fill loop exits, Manage unconditionally triggers one
final output of the current docker, even when it is empty: every task triggers
at least one text output, the trigger counter equals the number of triggered
batches, and whenever the number of items is zero or an exact multiple of the
docker capacity the final triggered batch is empty. -/
theorem manage_final_flush_unconditional :
    (∀ (α : Type) (cap : Nat) (items : List α),
       1 ≤ (manage cap items).started ∧
       (manage cap items).started = (manage cap items).outBatches.length) ∧
    (∀ (α : Type) (cap m : Nat) (items : List α), 1 ≤ cap →
       items.length = m * cap →
       (manage cap items).outBatches.getLast? = some []) := by
  constructor
  · intro α cap items
    have h := foldl_dockerOne_count cap items initCState
    unfold manage finalFlush
    simp only [initCState, List.length_nil, List.length_append, List.length_cons] at h ⊢
    exact ⟨by omega, by omega⟩
  · intro α cap m items hcap hlen
    have hd := foldl_dockerOne_multiple cap hcap m items initCState rfl hlen
    unfold manage finalFlush
    rw [List.getLast?_append_of_ne_nil _ (by simp), hd]
    rfl

/-- Claim C10 witness: the theorem applied at capacity 2 with four items (an
exact multiple of the capacity), and at capacity 3 with one item. -/
theorem manage_final_flush_unconditional_witness :
    1 ≤ (manage 3 [(9 : Nat)]).started ∧
    1 ≤ 2 ∧ [(5 : Nat), 6, 7, 8].length = 2 * 2 ∧
    (manage 2 [(5 : Nat), 6, 7, 8]).outBatches.getLast? = some [] :=
  ⟨(manage_final_flush_unconditional.1 Nat 3 [9]).1, by decide, by decide,
   manage_final_flush_unconditional.2 Nat 2 2 [5, 6, 7, 8] (by decide) (by decide)⟩

theorem lreach_invariant {α : Type} (cap : Nat) (s : LState α)
    (h : LReach cap s) :
    s.col.outBatches.flatten ++ s.col.docker = s.proc ∧
    s.enq = s.proc ++ s.queue := by
  induction h with
  | init => exact ⟨rfl, rfl⟩
  | step hr hs ih =>
    cases hs with
    | enqueue d =>
      refine ⟨ih.1, ?_⟩
      rw [ih.2]
      simp
    | shutdown h => exact ih
    | deq d rest h =>
      constructor
      · rw [dockerOne_join, ih.1]
      · have h2 := ih.2
        rw [h] at h2
        rw [h2]
        simp

/-- Claim C6: once shutdown is requested (the control token consumed), the
fill/drain loop of Manage exits only with the text-item queue observed empty,
and at any such exit every item that was ever enqueued has been routed into a
docker; after the final flush that Manage performs on exit, the triggered
output batches carry exactly the enqueued items, in order — nothing is
dropped. -/
theorem loop_drains_all_items :
    ∀ (α : Type) (cap : Nat) (s : LState α), LReach cap s → loopExit s →
      s.queue = [] ∧ s.proc = s.enq ∧
      (finalFlush s.col).outBatches.flatten = s.enq := by
  intro α cap s hr hexit
  obtain ⟨hinv1, hinv2⟩ := lreach_invariant cap s hr
  refine ⟨hexit.2, ?_, ?_⟩
  · rw [hinv2, hexit.2, List.append_nil]
  · unfold finalFlush
    simp only [List.flatten_append, List.flatten_cons, List.flatten_nil,
      List.append_nil]
    rw [hinv1, hinv2, hexit.2, List.append_nil]

/-- Claim C6 witness: a concrete three-step run (enqueue one item, request
shutdown, drain the item) reaching an exit state in which the single item is
output by the final flush. -/
theorem loop_drains_all_items_witness :
    (finalFlush (dockerOne 3 initCState (5 : Nat))).outBatches.flatten = [5] := by
  have hr : LReach 3 (⟨false, [], dockerOne 3 initCState (5 : Nat), [5], [5]⟩ : LState Nat) := by
    have h1 : LReach 3 (⟨true, [5], initCState, [5], []⟩ : LState Nat) :=
      LReach.step LReach.init (LStep.enqueue initLState 5)
    have h2 : LReach 3 (⟨false, [5], initCState, [5], []⟩ : LState Nat) :=
      LReach.step h1 (LStep.shutdown _ rfl)
    exact LReach.step h2 (LStep.deq _ 5 [] rfl)
  exact (loop_drains_all_items Nat 3 _ hr ⟨rfl, rfl⟩).2.2

theorem breach_invariant (s : BState) (h : BReach s) :
    s.dataStarted = s.dataFinished + s.dataInflight ∧
    s.fileStarted = s.fileFinished + s.fileInflight ∧
    s.reports = (if s.phase = Phase.done then 1 else 0) := by
  induction h with
  | init => exact ⟨by trivial, by trivial, by trivial⟩
  | step hr hs ih =>
    cases hs with
    | dataTrigger h =>
      obtain ⟨i1, i2, i3⟩ := ih
      refine ⟨by simp; omega, by simpa using i2, ?_⟩
      simpa [h] using i3
    | dataFinish h =>
      obtain ⟨i1, i2, i3⟩ := ih
      exact ⟨by simp; omega, by simpa using i2, by simpa using i3⟩
    | fileEnqueue h =>
      obtain ⟨i1, i2, i3⟩ := ih
      exact ⟨by simpa using i1, by simpa using i2, by simpa using i3⟩
    | fileTrigger h h2 =>
      obtain ⟨i1, i2, i3⟩ := ih
      exact ⟨by simpa using i1, by simp; omega, by simpa using i3⟩
    | fileFinish h =>
      obtain ⟨i1, i2, i3⟩ := ih
      exact ⟨by simpa using i1, by simp; omega, by simpa using i3⟩
    | finalTrigger h =>
      obtain ⟨i1, i2, i3⟩ := ih
      refine ⟨by simp; omega, by simpa using i2, ?_⟩
      simpa [h] using i3
    | report h hb =>
      obtain ⟨i1, i2, i3⟩ := ih
      refine ⟨by simpa using i1, by simpa using i2, ?_⟩
      simp [h] at i3
      simp [i3]

/-- Claim C1: along every interleaving of Manage with its asynchronous
outputs, the started counters always equal finished plus in-flight, the
report step can fire only when both started/finished counter pairs are equal,
the file queue is empty and nothing is in flight (the barrier can never hold
while a triggered output is in flight), and exactly one report is emitted:
never more than one, and exactly one once Manage has returned. -/
theorem manage_single_report_after_barrier :
    (∀ s : BState, BReach s →
       s.dataStarted = s.dataFinished + s.dataInflight ∧
       s.fileStarted = s.fileFinished + s.fileInflight) ∧
    (∀ s s2 : BState, BReach s → BStep s s2 → s.reports < s2.reports →
       s.dataInflight = 0 ∧ s.fileInflight = 0 ∧
       s.dataStarted = s.dataFinished ∧ s.fileStarted = s.fileFinished ∧
       s.fileQueue = 0) ∧
    (∀ s : BState, BReach s →
       s.reports ≤ 1 ∧ (s.phase = Phase.done → s.reports = 1)) := by
  refine ⟨?_, ?_, ?_⟩
  · intro s h
    exact ⟨(breach_invariant s h).1, (breach_invariant s h).2.1⟩
  · intro s s2 hr hs hlt
    obtain ⟨i1, i2, i3⟩ := breach_invariant s hr
    cases hs with
    | dataTrigger h => simp at hlt
    | dataFinish h => simp at hlt
    | fileEnqueue h => simp at hlt
    | fileTrigger h h2 => simp at hlt
    | fileFinish h => simp at hlt
    | finalTrigger h => simp at hlt
    | report h hb =>
      obtain ⟨b1, b2, b3⟩ := hb
      exact ⟨by omega, by omega, by omega, by omega, b3⟩
  · intro s h
    obtain ⟨_, _, i3⟩ := breach_invariant s h
    constructor
    · rw [i3]
      split <;> omega
    · intro hd
      rw [i3, if_pos hd]

/-- Claim C1 witness: the theorem applied along a concrete run that triggers
one output (the final flush), completes it, and reports. -/
theorem manage_single_report_after_barrier_witness :
    (initBState.dataStarted = initBState.dataFinished + initBState.dataInflight) ∧
    ((⟨1, 1, 0, 0, 0, 0, 0, Phase.wait, 0⟩ : BState).dataInflight = 0 ∧
     (⟨1, 1, 0, 0, 0, 0, 0, Phase.wait, 0⟩ : BState).fileInflight = 0 ∧
     (⟨1, 1, 0, 0, 0, 0, 0, Phase.wait, 0⟩ : BState).dataStarted
       = (⟨1, 1, 0, 0, 0, 0, 0, Phase.wait, 0⟩ : BState).dataFinished ∧
     (⟨1, 1, 0, 0, 0, 0, 0, Phase.wait, 0⟩ : BState).fileStarted
       = (⟨1, 1, 0, 0, 0, 0, 0, Phase.wait, 0⟩ : BState).fileFinished ∧
     (⟨1, 1, 0, 0, 0, 0, 0, Phase.wait, 0⟩ : BState).fileQueue = 0) := by
  have h1 : BReach (⟨1, 0, 1, 0, 0, 0, 0, Phase.wait, 0⟩ : BState) :=
    BReach.step BReach.init (BStep.finalTrigger initBState rfl)
  have h2 : BReach (⟨1, 1, 0, 0, 0, 0, 0, Phase.wait, 0⟩ : BState) :=
    BReach.step h1 (BStep.dataFinish _ (by decide))
  have hb : barrierHolds (⟨1, 1, 0, 0, 0, 0, 0, Phase.wait, 0⟩ : BState) :=
    ⟨by decide, by decide, rfl⟩
  refine ⟨(manage_single_report_after_barrier.1 initBState BReach.init).1, ?_⟩
  exact manage_single_report_after_barrier.2.1 _ _ h2
    (BStep.report _ rfl hb) (by decide)

theorem readSuccessGo_noop (env : SuccEnv) (b : Backend) (h : History)
    (hinh : h.success.inheritable = true) :
    readSuccessGo env b true h = ⟨h, none, false, succTrace1⟩ := by
  unfold readSuccessGo
  simp [hinh]

/-- An inheriting read always leaves the success half marked inheritable,
whatever the backend outcome (even at the panic point). -/
theorem readSuccessGo_inheritable (env : SuccEnv) (b : Backend) (h : History) :
    (readSuccessGo env b true h).hist.success.inheritable = true := by
  by_cases hinh : h.success.inheritable = true
  · rw [readSuccessGo_noop env b h hinh]
    exact hinh
  · cases b with
    | mgo =>
      unfold readSuccessGo
      cases env.mgoFind <;> simp [hinh]
    | mysql =>
      unfold readSuccessGo
      cases env.mysqlRows <;> by_cases hdb : env.mysqlDb = false <;> simp [hinh, hdb]
    | file =>
      unfold readSuccessGo
      cases henv : env.jsonKeys (patchBody env.fileContent) <;>
        by_cases hex : env.fileExists = false <;>
        by_cases hlen : env.fileContent.length = 0 <;>
        simp [hinh, hex, hlen, henv]

/-- The success-set outcome of an inheriting or resetting read depends only
on the success half of the starting state, never on the provider field. -/
theorem readSuccessGo_success_congr (env : SuccEnv) (b : Backend) (inh : Bool)
    (h1 h2 : History) (hs : h1.success = h2.success) :
    (readSuccessGo env b inh h1).hist.success
        = (readSuccessGo env b inh h2).hist.success ∧
    (readSuccessGo env b inh h1).backendUsed
        = (readSuccessGo env b inh h2).backendUsed ∧
    (readSuccessGo env b inh h1).panicked
        = (readSuccessGo env b inh h2).panicked := by
  cases inh with
  | false => exact ⟨by trivial, by trivial, by trivial⟩
  | true =>
    by_cases hi : h1.success.inheritable = true
    · rw [readSuccessGo_noop env b h1 hi,
        readSuccessGo_noop env b h2 (by rw [← hs]; exact hi)]
      exact ⟨hs, rfl, rfl⟩
    · have hi2 : ¬ h2.success.inheritable = true := by
        rw [← hs]
        exact hi
      unfold readSuccessGo
      simp only [Bool.not_true, Bool.false_eq_true, if_false, if_neg hi, if_neg hi2]
      cases b with
      | mgo => cases env.mgoFind <;> exact ⟨by trivial, by trivial, by trivial⟩
      | mysql =>
        by_cases hdb : env.mysqlDb = false
        · simp only [if_pos hdb]
          exact ⟨by trivial, by trivial, by trivial⟩
        · simp only [if_neg hdb]
          cases env.mysqlRows <;> exact ⟨by trivial, by trivial, by trivial⟩
      | file =>
        by_cases hex : env.fileExists = false
        · simp only [if_pos hex]
          exact ⟨by trivial, by trivial, by trivial⟩
        · simp only [if_neg hex]
          by_cases hlen : env.fileContent.length = 0
          · simp only [if_pos hlen]
            exact ⟨by trivial, by trivial, by trivial⟩
          · simp only [if_neg hlen]
            cases env.jsonKeys (patchBody env.fileContent) <;> exact ⟨by trivial, by trivial, by trivial⟩

/-- The failure-index outcome of a read depends only on the failure half of
the starting state, never on the provider field. -/
theorem readFailureGo_failure_congr (env : FailEnv) (b : Backend) (inh : Bool)
    (h1 h2 : History) (hf : h1.failure = h2.failure) :
    (readFailureGo env b inh h1).hist.failure
        = (readFailureGo env b inh h2).hist.failure ∧
    (readFailureGo env b inh h1).backendUsed
        = (readFailureGo env b inh h2).backendUsed ∧
    (readFailureGo env b inh h1).panicked
        = (readFailureGo env b inh h2).panicked := by
  cases inh with
  | false => exact ⟨by trivial, by trivial, by trivial⟩
  | true =>
    by_cases hi : h1.failure.inheritable = true
    · have hi2 : h2.failure.inheritable = true := by
        rw [← hf]
        exact hi
      unfold readFailureGo
      simp only [Bool.not_true, Bool.false_eq_true, if_false, if_pos hi, if_pos hi2]
      exact ⟨hf, by trivial, by trivial⟩
    · have hi2 : ¬ h2.failure.inheritable = true := by
        rw [← hf]
        exact hi
      unfold readFailureGo
      simp only [Bool.not_true, Bool.false_eq_true, if_false, if_neg hi, if_neg hi2]
      cases b with
      | mgo =>
        by_cases hme : env.mgoErr = true
        · simp only [if_pos hme]
          exact ⟨by trivial, by trivial, by trivial⟩
        · simp only [if_neg hme]
          exact ⟨by trivial, by trivial, by trivial⟩
      | mysql =>
        by_cases hdb : env.mysqlDb = false
        · simp only [if_pos hdb]
          exact ⟨by trivial, by trivial, by trivial⟩
        · simp only [if_neg hdb]
          cases env.mysqlRows <;> exact ⟨by trivial, by trivial, by trivial⟩
      | file =>
        by_cases hex : env.fileExists = false
        · simp only [if_pos hex]
          exact ⟨by trivial, by trivial, by trivial⟩
        · simp only [if_neg hex]
          by_cases hlen : env.fileContent.length = 0
          · simp only [if_pos hlen]
            exact ⟨by trivial, by trivial, by trivial⟩
          · simp only [if_neg hlen]
            cases env.jsonFailList (patchBody env.fileContent) <;> exact ⟨by trivial, by trivial, by trivial⟩

/-- Claim C3: UpsertSuccess returns true exactly when the record's
fingerprint is absent from both old and new; a false return changes nothing;
and when the fingerprint is fresh, a first call returns true, a second call
on the result returns false and leaves the sets unchanged, and exactly one
entry for the fingerprint remains in the Success Set. -/
theorem upsertSuccess_idempotent :
    (∀ (h : History) (r : Record),
       ((h.upsertSuccess r).2 = true ↔
         (r.fingerprint ∉ h.success.old ∧ r.fingerprint ∉ h.success.new))) ∧
    (∀ (h : History) (r : Record), (h.upsertSuccess r).2 = false →
       (h.upsertSuccess r).1 = h) ∧
    (∀ (h : History) (r : Record),
       r.fingerprint ∉ h.success.old → r.fingerprint ∉ h.success.new →
       (h.upsertSuccess r).2 = true ∧
       ((h.upsertSuccess r).1.upsertSuccess r).2 = false ∧
       ((h.upsertSuccess r).1.upsertSuccess r).1 = (h.upsertSuccess r).1 ∧
       ((h.upsertSuccess r).1.success.old
           ++ (h.upsertSuccess r).1.success.new).count r.fingerprint = 1) := by
  refine ⟨?_, ?_, ?_⟩
  · intro h r
    by_cases hmem : r.fingerprint ∈ h.success.old ∨ r.fingerprint ∈ h.success.new
    · simp only [History.upsertSuccess, if_pos hmem]
      simp only [Bool.false_eq_true, false_iff]
      tauto
    · simp only [History.upsertSuccess, if_neg hmem]
      simp only [true_iff]
      tauto
  · intro h r hf
    by_cases hmem : r.fingerprint ∈ h.success.old ∨ r.fingerprint ∈ h.success.new
    · simp only [History.upsertSuccess, if_pos hmem]
    · simp only [History.upsertSuccess, if_neg hmem] at hf
      simp at hf
  · intro h r h1 h2
    have hmem : ¬ (r.fingerprint ∈ h.success.old ∨ r.fingerprint ∈ h.success.new) := by
      tauto
    have hfst : h.upsertSuccess r
        = ({ h with success := ⟨h.success.old, h.success.new ++ [r.fingerprint],
                                h.success.inheritable⟩ }, true) := by
      simp only [History.upsertSuccess, if_neg hmem]
    have key : ∀ hh : History,
        (r.fingerprint ∈ hh.success.old ∨ r.fingerprint ∈ hh.success.new) →
        hh.upsertSuccess r = (hh, false) := by
      intro hh hm
      simp only [History.upsertSuccess, if_pos hm]
    have hmem2 : r.fingerprint ∈ (h.upsertSuccess r).1.success.old ∨
        r.fingerprint ∈ (h.upsertSuccess r).1.success.new := by
      rw [hfst]
      right
      simp
    have hsnd := key _ hmem2
    refine ⟨by rw [hfst], by rw [hsnd], by rw [hsnd], ?_⟩
    rw [hfst]
    simp only [List.count_append]
    rw [List.count_eq_zero.mpr h1, List.count_eq_zero.mpr h2]
    simp

/-- Claim C3 witness: a fresh fingerprint on the empty ledger — first upsert
true, duplicate upsert false, one entry left. -/
theorem upsertSuccess_idempotent_witness :
    (newHistory.upsertSuccess ⟨"u", "GET"⟩).2 = true ∧
    ((newHistory.upsertSuccess ⟨"u", "GET"⟩).1.upsertSuccess ⟨"u", "GET"⟩).2 = false ∧
    ((newHistory.upsertSuccess ⟨"u", "GET"⟩).1.success.old
        ++ (newHistory.upsertSuccess ⟨"u", "GET"⟩).1.success.new).count
      (Record.fingerprint ⟨"u", "GET"⟩) = 1 := by
  have h := upsertSuccess_idempotent.2.2 newHistory ⟨"u", "GET"⟩
    (List.not_mem_nil _) (List.not_mem_nil _)
  exact ⟨h.1, h.2.1, h.2.2.2⟩

/-- Claim C4: ReadSuccess with inherit=false always resets old and new and
marks not-inheritable without consulting any backend, regardless of prior
state; and after a non-panicking ReadSuccess with inherit=true, a second
ReadSuccess with inherit=true only re-records the provider: the success sets
are unchanged and no backend read is issued. -/
theorem readSuccess_inherit_semantics :
    (∀ (env : SuccEnv) (p : String) (h : History),
       (h.readSuccess env p false).hist
           = { h with provider := p, success := ⟨[], [], false⟩ } ∧
       (h.readSuccess env p false).backendUsed = none ∧
       (h.readSuccess env p false).panicked = false) ∧
    (∀ (env env2 : SuccEnv) (p p2 : String) (h : History),
       (h.readSuccess env p true).panicked = false →
       ((h.readSuccess env p true).hist.readSuccess env2 p2 true).hist
           = { (h.readSuccess env p true).hist with provider := p2 } ∧
       ((h.readSuccess env p true).hist.readSuccess env2 p2 true).backendUsed
           = none ∧
       ((h.readSuccess env p true).hist.readSuccess env2 p2 true).panicked
           = false) := by
  constructor
  · intro env p h
    exact ⟨rfl, rfl, rfl⟩
  · intro env env2 p p2 h _
    have hinh : (h.readSuccess env p true).hist.success.inheritable = true :=
      readSuccessGo_inheritable env (selectBackend p) { h with provider := p }
    have hnoop := readSuccessGo_noop env2 (selectBackend p2)
      { (h.readSuccess env p true).hist with provider := p2 } hinh
    simp only [History.readSuccess] at hnoop ⊢
    rw [hnoop]
    exact ⟨rfl, rfl, rfl⟩

/-- Claim C4 witness: the theorem applied on the fresh ledger with a provider
whose backend is absent (first read succeeds without panicking). -/
theorem readSuccess_inherit_semantics_witness :
    (newHistory.readSuccess envAbsent "x" false).backendUsed = none ∧
    (newHistory.readSuccess envAbsent "x" true).panicked = false ∧
    ((newHistory.readSuccess envAbsent "x" true).hist.readSuccess envAbsent
        "y" true).backendUsed = none := by
  refine ⟨(readSuccess_inherit_semantics.1 envAbsent "x" newHistory).2.1, rfl, ?_⟩
  exact (readSuccess_inherit_semantics.2 envAbsent envAbsent "x" "y" newHistory rfl).2.1

/-- Claim C5 counterexample: on a ledger whose success half is marked
inheritable (a prior inheriting read), Empty leaves the inheritable flag set,
so the next ReadSuccess(provider, inherit=true) is skipped — it consults no
backend (backendUsed = none) even though the file backend has data — contrary
to the claimed fresh backend load after Empty. -/
theorem empty_then_read_skips_load :
    histInherited.emptyCache.1.success.inheritable = true ∧
    (histInherited.emptyCache.1.readSuccess envFileReady "file" true).backendUsed
      = none ∧
    (histInherited.emptyCache.1.readSuccess envFileReady "file" true).hist.success.old
      = [] := by
  exact ⟨rfl, rfl, rfl⟩

/-- Claim C5 (amended): Empty clears new, old and the Failure Index in one
locked step but leaves both inheritable flags untouched; consequently a
ReadSuccess(provider, inherit=true) issued after an Empty that followed an
inheriting read is skipped — no backend read — and the success sets remain
empty, so nothing recorded before the Empty survives in memory. -/
theorem empty_clears_cache :
    (∀ h : History,
       h.emptyCache.1.success.old = [] ∧
       h.emptyCache.1.success.new = [] ∧
       h.emptyCache.1.failure.list = [] ∧
       h.emptyCache.1.success.inheritable = h.success.inheritable ∧
       h.emptyCache.1.failure.inheritable = h.failure.inheritable ∧
       accessesInside h.emptyCache.2 = true) ∧
    (∀ (env : SuccEnv) (p : String) (h : History),
       h.success.inheritable = true →
       (h.emptyCache.1.readSuccess env p true).backendUsed = none ∧
       (h.emptyCache.1.readSuccess env p true).hist.success.old = [] ∧
       (h.emptyCache.1.readSuccess env p true).hist.success.new = [] ∧
       (h.emptyCache.1.readSuccess env p true).panicked = false) := by
  constructor
  · intro h
    exact ⟨rfl, rfl, rfl, rfl, rfl, rfl⟩
  · intro env p h hinh
    have hnoop := readSuccessGo_noop env (selectBackend p)
      { h.emptyCache.1 with provider := p } hinh
    simp only [History.readSuccess]
    rw [hnoop]
    exact ⟨rfl, rfl, rfl, rfl⟩

/-- Claim C5 witness: the amended statement applied on a concrete inheritable
ledger with data in every set. -/
theorem empty_clears_cache_witness :
    histInherited.emptyCache.1.success.old = [] ∧
    (histInherited.emptyCache.1.readSuccess envAbsent "file" true).backendUsed
      = none :=
  ⟨(empty_clears_cache.1 histInherited).1,
   (empty_clears_cache.2 envAbsent "file" histInherited rfl).1⟩

/-- Claim C7 (code behaviour at the three flat-file states, inherit=true):
with a nonexistent file or with undecodable content, ReadSuccess and
ReadFailure return normally with empty sets; but with an existing empty file
the patch write of the first byte panics instead of returning normally — the
empty-file case contradicts the claimed non-fatal handling. -/
theorem history_file_read_edge_cases :
    ((newHistory.readSuccess envAbsent "file" true).panicked = false ∧
     (newHistory.readSuccess envAbsent "file" true).hist.success.old = []) ∧
    ((newHistory.readFailure fenvAbsent "file" true).panicked = false ∧
     (newHistory.readFailure fenvAbsent "file" true).hist.failure.list = []) ∧
    ((newHistory.readSuccess envBadContent "file" true).panicked = false ∧
     (newHistory.readSuccess envBadContent "file" true).hist.success.old = []) ∧
    ((newHistory.readFailure fenvBadContent "file" true).panicked = false ∧
     (newHistory.readFailure fenvBadContent "file" true).hist.failure.list = []) ∧
    (newHistory.readSuccess envEmptyFile "file" true).panicked = true ∧
    (newHistory.readFailure fenvEmptyFile "file" true).panicked = true := by
  exact ⟨⟨rfl, rfl⟩, ⟨rfl, rfl⟩, ⟨rfl, rfl⟩, ⟨rfl, rfl⟩, rfl, rfl⟩

/-- Claim C8 counterexample: ReadSuccess holds the ledger lock only while
recording the provider; its reset of the success sets happens after Unlock,
so it is not the case that every Success Set access is performed under the
lock. -/
theorem readSuccess_unlocked_access :
    accessesInside (newHistory.readSuccess envAbsent "file" false).trace
      = false := by
  rfl

/-- Claim C8 (amended/corrected): Empty performs all its set accesses while
holding the lock, but ReadSuccess, ReadFailure, FlushSuccess and FlushFailure
hold the lock only for the provider write — every access they make to the
Success Set or the Failure Index happens outside the lock. (UpsertSuccess,
DeleteSuccess, UpsertFailure, DeleteFailure and PullFailure live outside
src.) -/
theorem ledger_lock_discipline :
    (∀ h : History, accessesInside h.emptyCache.2 = true) ∧
    (∀ (env : SuccEnv) (p : String) (inh : Bool) (h : History),
       accessesOutside (h.readSuccess env p inh).trace = true) ∧
    (∀ (env : FailEnv) (p : String) (inh : Bool) (h : History),
       accessesOutside (h.readFailure env p inh).trace = true) ∧
    (∀ (h : History) (p : String),
       accessesOutside (h.flushSuccess p).trace = true ∧
       accessesOutside (h.flushFailure p).trace = true) := by
  refine ⟨fun h => rfl, ?_, ?_, fun h p => ⟨rfl, rfl⟩⟩
  · intro env p inh h
    unfold History.readSuccess readSuccessGo
    repeat' split
    all_goals rfl
  · intro env p inh h
    unfold History.readFailure readFailureGo
    repeat' split
    all_goals rfl

/-- Claim C9: every provider other than "mgo" and "mysql" is dispatched to
the flat-file branch and behaves exactly like the flat-file provider: the
reads produce the same success/failure state, the same backend use and the
same panic behaviour, and the flushes write to the flat file. -/
theorem provider_fallback_file :
    (∀ p : String, p ≠ "mgo" → p ≠ "mysql" → selectBackend p = Backend.file) ∧
    (∀ (env : SuccEnv) (p : String) (inh : Bool) (h : History),
       p ≠ "mgo" → p ≠ "mysql" →
       (h.readSuccess env p inh).hist.success
           = (h.readSuccess env "file" inh).hist.success ∧
       (h.readSuccess env p inh).backendUsed
           = (h.readSuccess env "file" inh).backendUsed ∧
       (h.readSuccess env p inh).panicked
           = (h.readSuccess env "file" inh).panicked) ∧
    (∀ (env : FailEnv) (p : String) (inh : Bool) (h : History),
       p ≠ "mgo" → p ≠ "mysql" →
       (h.readFailure env p inh).hist.failure
           = (h.readFailure env "file" inh).hist.failure ∧
       (h.readFailure env p inh).backendUsed
           = (h.readFailure env "file" inh).backendUsed ∧
       (h.readFailure env p inh).panicked
           = (h.readFailure env "file" inh).panicked) ∧
    (∀ (h : History) (p : String), p ≠ "mgo" → p ≠ "mysql" →
       (h.flushSuccess p).backend = Backend.file ∧
       (h.flushFailure p).backend = Backend.file) := by
  have hsel : ∀ p : String, p ≠ "mgo" → p ≠ "mysql" →
      selectBackend p = Backend.file := by
    intro p hp1 hp2
    unfold selectBackend
    rw [if_neg hp1, if_neg hp2]
  refine ⟨hsel, ?_, ?_, ?_⟩
  · intro env p inh h hp1 hp2
    unfold History.readSuccess
    rw [hsel p hp1 hp2, hsel "file" (by decide) (by decide)]
    exact readSuccessGo_success_congr env Backend.file inh
      { h with provider := p } { h with provider := "file" } rfl
  · intro env p inh h hp1 hp2
    unfold History.readFailure
    rw [hsel p hp1 hp2, hsel "file" (by decide) (by decide)]
    exact readFailureGo_failure_congr env Backend.file inh
      { h with provider := p } { h with provider := "file" } rfl
  · intro h p hp1 hp2
    unfold History.flushSuccess History.flushFailure
    rw [hsel p hp1 hp2]
    exact ⟨rfl, rfl⟩

/-- Claim C9 witness: the theorem applied to the unrecognized provider
"postgres" on a concrete ledger and environment. -/
theorem provider_fallback_file_witness :
    selectBackend "postgres" = Backend.file ∧
    (histInherited.flushSuccess "postgres").backend = Backend.file ∧
    (newHistory.readSuccess envFileReady "postgres" true).backendUsed
      = (newHistory.readSuccess envFileReady "file" true).backendUsed :=
  ⟨provider_fallback_file.1 "postgres" (by decide) (by decide),
   (provider_fallback_file.2.2.2 histInherited "postgres" (by decide) (by decide)).1,
   (provider_fallback_file.2.1 envFileReady "postgres" true newHistory
      (by decide) (by decide)).2.1⟩
